import Mathlib

/-!
Verification of the `Locator` of happy-css-modules.

This development gives a shallow embedding of the `Locator` class
(`src/loader/index.ts`) of happy-css-modules together with the default
transformer dispatcher (`src/transformer/index.ts`), and proves or refutes
the specified properties about it.

The external collaborators of the Locator (the postcss AST walk of
`postcss.js`, the user resolver and the preprocessor backends) are modelled
abstractly: a file of the modelled filesystem carries directly the parsed
node streams (`@import` arguments, `@value` declarations, class selectors,
local token names) that the real pipeline produces, and a resolver is an
arbitrary function from specifier and requesting file to an optional path.
The internal logic of the Locator itself — caching, staleness checking,
recursion over imports, token assembly, de-duplication — is embedded
faithfully, statement by statement.

Asynchrony is modelled by sequentialising: the JS code is single-threaded
and every suspension point is an I/O call, so a run of `_load` is a
deterministic function of the filesystem, the resolver and the starting
cache.  Possible non-termination (cyclic imports) is made explicit with a
fuel parameter: `LoadOut.fuelOut` marks a run that did not complete within
the given fuel.
-/

/-- A point in an original (pre-transform) source file
(`Location` of `postcss.js`). -/
structure Location where
  filePath : String
  line : Nat
  column : Nat
deriving DecidableEq, Repr

/-- The exported token (`Token` of `src/loader/index.ts`).
`importedName? : Option String` models the optional field `importedName?`. -/
structure Token where
  name : String
  importedName : Option String
  originalLocation : Location
deriving DecidableEq, Repr

/-- The result of `Locator#load` (`LoadResult`). -/
structure LoadResult where
  dependencies : List String
  tokens : List Token
deriving DecidableEq, Repr

/-- A cache entry (`CacheEntry`): modification time in ms plus the result. -/
structure CacheEntry where
  mtime : Int
  result : LoadResult
deriving DecidableEq, Repr

/-- One `localTokenName as importedTokenName` pair of a
`@value ... from` declaration (shape produced by `parseAtValue`). -/
structure ValueImportEntry where
  localTokenName : String
  importedTokenName : String
deriving DecidableEq, Repr

/-- The parse result of one `@value` at-rule (`parseAtValue` of
`postcss.js`): either a declaration of a token, or an import declaration.
For a declaration we record directly the original location that
`getOriginalLocationOfAtValue` would return. -/
inductive ParsedAtValue where
  | valueDeclaration (tokenName : String) (loc : Location)
  | valueImportDeclaration (source : String) (imports : List ValueImportEntry)
deriving DecidableEq, Repr

/-- One class selector occurrence paired with the original location that
`getOriginalLocationOfClassSelector` would return for it. -/
structure ClassSelectorNode where
  value : String
  loc : Location
deriving DecidableEq, Repr

/-- The node streams `collectNodes` extracts from one parsed sheet, plus
the local token names computed by `generateLocalTokenNames`.  An entry of
`atImports` is the result of `parseAtImport` on the at-rule: `none` when
the argument could not be parsed. -/
structure ParsedSheet where
  atImports : List (Option String)
  classSelectors : List ClassSelectorNode
  localTokenNames : List String
  atValues : List ParsedAtValue
deriving DecidableEq, Repr

/-- What the filesystem and the read/transform/parse front end yield for
one file: its mtime (in ms), the dependency list contributed by the
transformer (already normalised by `readCSS`), and the parsed sheet. -/
structure FileData where
  mtime : Int
  transformerDeps : List String
  sheet : ParsedSheet
deriving DecidableEq, Repr

/-- The modelled filesystem: an association list from absolute path to
file data.  A path absent from the list does not exist (stat fails). -/
def Env : Type := List (String × FileData)

/-- Association-list lookup (first binding wins, like `Map.get` after
`Map.set` prepends in our cache model). -/
def alookup {α : Type} : List (String × α) → String → Option α
  | [], _ => none
  | (k, v) :: rest, key => if k = key then some v else alookup rest key

/-- `stat(path).mtime.getTime()`: fails (returns `none`) when the file
does not exist. -/
def Env.statMtime (env : Env) (p : String) : Option Int :=
  (alookup env p).map (·.mtime)

/-- `readFile` plus the front end: the data of the file. -/
def Env.readData (env : Env) (p : String) : Option FileData :=
  alookup env p

/-- `String.prototype.startsWith`, expressed on the character sequence (so
that it evaluates by kernel reduction). -/
def strStartsWith (s pre : String) : Bool :=
  pre.data.isPrefixOf s.data

/-- `String.prototype.endsWith`, expressed on the character sequence. -/
def strEndsWith (s post : String) : Bool :=
  post.data.isSuffixOf s.data

/-- Whether the specifier should be ignored (`isIgnoredSpecifier` of
`src/loader/index.ts`): specifiers starting with `http://` or `https://`. -/
def isIgnoredSpecifier (specifier : String) : Bool :=
  strStartsWith specifier "http://" || strStartsWith specifier "https://"

/-- Modelled from the spec: `unique` of `src/util.ts` is not among the
sources; the spec fixes it as de-duplication that keeps insertion order,
i.e. the first occurrence of each element survives. -/
def uniqueList {α : Type} [DecidableEq α] : List α → List α
  | [] => []
  | x :: xs => x :: (uniqueList xs).filter (· ≠ x)

/-- Modelled from the spec: `uniqueBy` of `src/util.ts` is not among the
sources; the spec fixes token de-duplication as structural equality over
the full record, matching `uniqueBy(tokens, token => JSON.stringify(token))`
— every token construction site of `_load` writes its fields in the same
key order, so equality of the JSON strings is structural equality. -/
def uniqueTokens : List Token → List Token := uniqueList

/-- The token list contributed by one `@value ... from` import declaration
(`_load`, the loop over `result.tokens`): for each token of the source
sheet, the *first* import entry whose `importedTokenName` equals the
token's name determines the emitted token; `importedName` is set only when
the local alias differs from the imported name; the location is the source
sheet token's location. -/
def valueImportTokens (imports : List ValueImportEntry) (toks : List Token) :
    List Token :=
  toks.filterMap fun t =>
    match imports.find? (fun i => i.importedTokenName == t.name) with
    | none => none
    | some m =>
      if m.localTokenName == m.importedTokenName then
        some { name := m.localTokenName, importedName := none,
               originalLocation := t.originalLocation }
      else
        some { name := m.localTokenName, importedName := some m.importedTokenName,
               originalLocation := t.originalLocation }

/-- The tokens contributed by class selectors (`_load`, the loop over
`classSelectors`): selectors whose value is among the local token names. -/
def classSelectorTokens (localTokenNames : List String)
    (selectors : List ClassSelectorNode) : List Token :=
  (selectors.filter (fun s => localTokenNames.contains s.value)).map
    fun s => { name := s.value, importedName := none, originalLocation := s.loc }

section ReadCSS

/-- One element of a transformer's dependency list: either a plain path
string or a URL object with `protocol` and `pathname`. -/
inductive TransformerDep where
  | path (s : String)
  | url (protocol : String) (pathname : String)
deriving DecidableEq, Repr

/-- A transformer outcome: `false` (not handled) or a result object. -/
inductive TransformOutcome where
  | notHandled
  | handled (css : String) (map : Option String) (deps : List TransformerDep)
deriving DecidableEq, Repr

/-- The transformer contract: from source code and the `from` path to an
outcome.  (The real signature also passes the resolver and
`isIgnoredSpecifier`; they do not influence the gateway logic modelled
here.) -/
def TransformerFn : Type := String → String → TransformOutcome

/-- The result of `Locator#readCSS`. -/
structure ReadCSSResult where
  css : String
  map : Option String
  dependencies : List String
deriving DecidableEq, Repr

/-- Normalise one transformer dependency (`readCSS`, the `.map` callback):
a string passes through; a URL must have the file protocol. -/
def normalizeDep : TransformerDep → Except String String
  | .path s => .ok s
  | .url protocol pathname =>
      if protocol = "file:" then .ok pathname
      else .error ("Unsupported protocol: " ++ protocol)

/-- `Locator#readCSS`: read the source, run the transformer if any;
a `false` outcome falls back to the raw source with no map and no
dependencies; otherwise normalise the dependency list and drop ignored
(remote) specifiers. -/
def readCSS (transformer : Option TransformerFn) (source : String)
    (filePath : String) : Except String ReadCSSResult :=
  match transformer with
  | none => .ok { css := source, map := none, dependencies := [] }
  | some t =>
    match t source filePath with
    | .notHandled => .ok { css := source, map := none, dependencies := [] }
    | .handled css map deps =>
      match deps.mapM normalizeDep with
      | .error e => .error e
      | .ok deps' =>
        .ok { css := css, map := map,
              dependencies := deps'.filter (fun d => !isIgnoredSpecifier d) }

/-- `defaultTransformer` of `src/transformer/index.ts`: dispatch on the
file extension; the scss and less backends are external and passed in as
parameters; anything else is not handled (`return false`). -/
def defaultTransformer (scssT lessT : TransformerFn) : TransformerFn :=
  fun source fromPath =>
    if strEndsWith fromPath ".scss" then scssT source fromPath
    else if strEndsWith fromPath ".less" then lessT source fromPath
    else .notHandled

end ReadCSS

section LoadEngine

/-- The errors a load can raise (error taxonomy of the Locator):
stat failure on a missing file, resolution failure, the concurrent-load
guard, and the impossible branch behind the non-null assertion
`this.cache.get(filePath)!`. -/
inductive LoadError where
  | statError (path : String)
  | resolutionError (specifier : String) (request : String)
  | concurrentLoad
  | internal
deriving DecidableEq, Repr

/-- The outcome of a fuelled run: a value, a raised error, or fuel
exhaustion (the run did not complete — possible non-termination). -/
inductive LoadOut (α : Type) where
  | ok (a : α)
  | err (e : LoadError)
  | fuelOut
deriving DecidableEq, Repr

/-- The cache of the Locator: `Map<string, CacheEntry>` modelled as an
association list where `cacheSet` prepends (the first binding wins, so a
later `set` shadows an earlier one exactly like `Map.set`). -/
def Cache : Type := List (String × CacheEntry)

def cacheGet (cache : Cache) (p : String) : Option CacheEntry :=
  alookup cache p

def cacheSet (cache : Cache) (p : String) (e : CacheEntry) : Cache :=
  (p, e) :: cache

/-- A resolver (`Resolver`): `none` models the `false` return.  The strict
wrapper built in the constructor turns `none` into a thrown resolution
error; that wrapping is inlined where the resolver is consulted below. -/
def ResolverFn : Type := String → String → Option String

/-- The fixed collaborators of one Locator: the filesystem and the raw
resolver. -/
structure Ctx where
  env : Env
  resolver : ResolverFn

/-- The dependency part of `Locator#isCacheOutdated`: walk the cached
dependency list; a dependency without a cache entry makes the cache
outdated; a dependency whose current mtime cannot be read makes the whole
check throw; an mtime mismatch makes the cache outdated. -/
def depsOutdated (env : Env) (cache : Cache) :
    List String → Except LoadError Bool
  | [] => .ok false
  | dep :: rest =>
    match cacheGet cache dep with
    | none => .ok true
    | some entry =>
      match env.statMtime dep with
      | none => .error (.statError dep)
      | some mtime =>
        if entry.mtime ≠ mtime then .ok true
        else depsOutdated env cache rest

/-- `Locator#isCacheOutdated`: `true` when there is no entry, when the
file's mtime changed, or when some listed dependency is missing from the
cache or changed mtime.  `stat` failures propagate as errors. -/
def isCacheOutdated (env : Env) (cache : Cache) (filePath : String) :
    Except LoadError Bool :=
  match cacheGet cache filePath with
  | none => .ok true
  | some entry =>
    match env.statMtime filePath with
    | none => .error (.statError filePath)
    | some mtime =>
      if entry.mtime ≠ mtime then .ok true
      else depsOutdated env cache entry.result.dependencies

/-- The running state threaded through the two recursion loops of `_load`:
the cache, the accumulated dependency list, the accumulated token list and
the log of `readFile` calls made so far. -/
structure LoopState where
  cache : Cache
  deps : List String
  toks : List Token
  reads : List String

/-- The type of the recursive entry point handed to the loops: what
`this._load` denotes at one smaller fuel.  It returns the outcome, the
cache after the call and the `readFile` log of the call. -/
def LoadFn : Type := Cache → String → LoadOut LoadResult × Cache × List String

/-- One resolved recursive load inside a loop of `_load`
(`const result = await this._load(from); dependencies.push(from,
...result.dependencies); tokens.push(...)`): call `loadF`; on success,
append the resolved path and its transitive dependencies, append the
tokens `tokensOf` derives from the result, and continue the loop with `k`;
a raised error or fuel exhaustion aborts the loop, keeping the cache and
reads of the failed call. -/
def loadIntoState (loadF : LoadFn) (fromPath : String)
    (tokensOf : LoadResult → List Token) (st : LoopState)
    (k : LoopState → LoadOut Unit × LoopState) : LoadOut Unit × LoopState :=
  match loadF st.cache fromPath with
  | (.ok r, cache', reads') =>
    k { cache := cache',
        deps := st.deps ++ fromPath :: r.dependencies,
        toks := st.toks ++ tokensOf r,
        reads := st.reads ++ reads' }
  | (.err e, cache', reads') =>
    (.err e, { st with cache := cache', reads := st.reads ++ reads' })
  | (.fuelOut, cache', reads') =>
    (.fuelOut, { st with cache := cache', reads := st.reads ++ reads' })

/-- The `@import` loop of `_load`: for each at-rule, skip unparsable and
ignored specifiers, resolve (a `false` resolution throws), recursively
load, then append `from` and the transitive dependencies and re-export all
tokens. -/
def processAtImports (resolver : ResolverFn) (loadF : LoadFn)
    (filePath : String) :
    List (Option String) → LoopState → LoadOut Unit × LoopState
  | [], st => (.ok (), st)
  | none :: rest, st => processAtImports resolver loadF filePath rest st
  | some spec :: rest, st =>
    if isIgnoredSpecifier spec then
      processAtImports resolver loadF filePath rest st
    else
      match resolver spec filePath with
      | none => (.err (.resolutionError spec filePath), st)
      | some fromPath =>
        loadIntoState loadF fromPath (fun r => r.tokens) st
          (processAtImports resolver loadF filePath rest)

/-- The `@value` loop of `_load`: a value declaration contributes one
token; a value import declaration with an ignored source is skipped,
otherwise the source is resolved and recursively loaded, its path and
transitive dependencies are appended, and the matching tokens are emitted
by `valueImportTokens`. -/
def processAtValues (resolver : ResolverFn) (loadF : LoadFn)
    (filePath : String) :
    List ParsedAtValue → LoopState → LoadOut Unit × LoopState
  | [], st => (.ok (), st)
  | .valueDeclaration name loc :: rest, st =>
    processAtValues resolver loadF filePath rest
      { st with toks := st.toks ++
          [{ name := name, importedName := none, originalLocation := loc }] }
  | .valueImportDeclaration source imports :: rest, st =>
    if isIgnoredSpecifier source then
      processAtValues resolver loadF filePath rest st
    else
      match resolver source filePath with
      | none => (.err (.resolutionError source filePath), st)
      | some fromPath =>
        loadIntoState loadF fromPath (fun r => valueImportTokens imports r.tokens)
          st (processAtValues resolver loadF filePath rest)

/-- Step 9 of `_load`: de-duplicate the dependencies keeping insertion
order and drop the file itself; de-duplicate the tokens structurally. -/
def mkLoadResult (filePath : String) (deps : List String)
    (toks : List Token) : LoadResult :=
  { dependencies := (uniqueList deps).filter (fun dep => dep ≠ filePath),
    tokens := uniqueTokens toks }

/-- The tail of `_load` after the `@value` loop: an aborted loop
propagates its error or fuel exhaustion (keeping the cache and reads as
they stand); a completed loop reaches step 9, builds the final result and
stores it in the cache under the file's recorded mtime. -/
def finishValues (filePath : String) (mtime : Int)
    (out : LoadOut Unit × LoopState) : LoadOut LoadResult × Cache × List String :=
  match out with
  | (.err e, st) => (.err e, st.cache, st.reads)
  | (.fuelOut, st) => (.fuelOut, st.cache, st.reads)
  | (.ok _, st3) =>
    (.ok (mkLoadResult filePath st3.deps st3.toks),
     cacheSet st3.cache filePath
       { mtime := mtime,
         result := mkLoadResult filePath st3.deps st3.toks },
     st3.reads)

/-- The tail of `_load` after the `@import` loop: an aborted loop
propagates; a completed loop appends the class selector tokens and runs
the `@value` loop. -/
def afterImports (ctx : Ctx) (loadF : LoadFn) (filePath : String)
    (fd : FileData) (out : LoadOut Unit × LoopState) :
    LoadOut LoadResult × Cache × List String :=
  match out with
  | (.err e, st) => (.err e, st.cache, st.reads)
  | (.fuelOut, st) => (.fuelOut, st.cache, st.reads)
  | (.ok _, st1) =>
    finishValues filePath fd.mtime
      (processAtValues ctx.resolver loadF filePath fd.sheet.atValues
        { st1 with toks := (st1.toks ++
            classSelectorTokens fd.sheet.localTokenNames
              fd.sheet.classSelectors) })

/-- The body of a full (non-cached) `_load` of one file, after the stat
and read succeeded with data `fd`: seed the dependency list with the
transformer's dependencies, run the `@import` loop, then the class
selector collection, the `@value` loop, and the final assembly. -/
def loadBody (ctx : Ctx) (loadF : LoadFn) (filePath : String) (fd : FileData)
    (cache : Cache) : LoadOut LoadResult × Cache × List String :=
  afterImports ctx loadF filePath fd
    (processAtImports ctx.resolver loadF filePath fd.sheet.atImports
      { cache := cache, deps := fd.transformerDeps, toks := [],
        reads := [filePath] })

/-- The private recursive worker `_load` of the Locator, with explicit fuel:
1. if the cache is not outdated, return the cached result (no read);
2. otherwise stat and read the file and run `loadBody`. -/
def loadAux (ctx : Ctx) : Nat → LoadFn
  | 0 => fun cache _ => (.fuelOut, cache, [])
  | Nat.succ fuel => fun cache filePath =>
    match isCacheOutdated ctx.env cache filePath with
    | .error e => (.err e, cache, [])
    | .ok false =>
      match cacheGet cache filePath with
      | some entry => (.ok entry.result, cache, [])
      | none => (.err .internal, cache, [])
    | .ok true =>
      match ctx.env.readData filePath with
      | none => (.err (.statError filePath), cache, [])
      | some fd => loadBody ctx (loadAux ctx fuel) filePath fd cache

/-- The mutable state of one Locator instance: the cache and the in-flight
flag. -/
structure LocatorState where
  cache : Cache
  loading : Bool

/-- `Locator#load`, the public entry point: fail immediately when a load
is already in flight; otherwise set the flag, run `_load`, and clear the
flag whether the run succeeded or failed (`finally`). -/
def Locator.load (ctx : Ctx) (fuel : Nat) (loc : LocatorState)
    (filePath : String) : LoadOut LoadResult × LocatorState × List String :=
  if loc.loading then (.err .concurrentLoad, loc, [])
  else
    let out := loadAux ctx fuel loc.cache filePath
    (out.1, { cache := out.2.1, loading := false }, out.2.2)

/-- Termination of a top-level load, abstracting over the fuel: some fuel
suffices for the run to complete (with a result or an error). -/
def loadTerminates (ctx : Ctx) (loc : LocatorState) (filePath : String) : Prop :=
  ∃ fuel, (Locator.load ctx fuel loc filePath).1 ≠ LoadOut.fuelOut

end LoadEngine

section ListHelpers

theorem alookup_mem {α : Type} {l : List (String × α)} {k : String} {v : α}
    (h : alookup l k = some v) : (k, v) ∈ l := by
  induction l with
  | nil => simp [alookup] at h
  | cons hd tl ih =>
    obtain ⟨k', v'⟩ := hd
    by_cases hk : k' = k
    · subst hk
      simp [alookup] at h
      simp [h]
    · simp only [alookup, if_neg hk] at h
      exact List.mem_cons_of_mem _ (ih h)

theorem mem_uniqueList {α : Type} [DecidableEq α] {a : α} :
    ∀ {xs : List α}, a ∈ uniqueList xs ↔ a ∈ xs := by
  intro xs
  induction xs with
  | nil => simp [uniqueList]
  | cons x xs ih =>
    simp only [uniqueList, List.mem_cons, List.mem_filter]
    constructor
    · rintro (rfl | ⟨h, _⟩)
      · exact Or.inl rfl
      · exact Or.inr (ih.mp h)
    · rintro (rfl | h)
      · exact Or.inl rfl
      · by_cases hax : a = x
        · exact Or.inl hax
        · exact Or.inr ⟨ih.mpr h, by simpa using hax⟩

theorem uniqueList_nodup {α : Type} [DecidableEq α] :
    ∀ (xs : List α), (uniqueList xs).Nodup := by
  intro xs
  induction xs with
  | nil => simp [uniqueList]
  | cons x xs ih =>
    simp only [uniqueList, List.nodup_cons]
    refine ⟨?_, ih.filter _⟩
    intro hmem
    have := (List.mem_filter.mp hmem).2
    simp at this

theorem mkLoadResult_not_self_mem (filePath : String) (deps : List String)
    (toks : List Token) : filePath ∉ (mkLoadResult filePath deps toks).dependencies := by
  intro h
  have := (List.mem_filter.mp h).2
  simp at this

theorem mkLoadResult_deps_nodup (filePath : String) (deps : List String)
    (toks : List Token) : (mkLoadResult filePath deps toks).dependencies.Nodup :=
  (uniqueList_nodup deps).filter _

theorem mkLoadResult_tokens_nodup (filePath : String) (deps : List String)
    (toks : List Token) : (mkLoadResult filePath deps toks).tokens.Nodup :=
  uniqueList_nodup toks

theorem mkLoadResult_deps_subset (filePath : String) (deps : List String)
    (toks : List Token) :
    ∀ d ∈ (mkLoadResult filePath deps toks).dependencies, d ∈ deps := by
  intro d hd
  exact mem_uniqueList.mp (List.mem_filter.mp hd).1

end ListHelpers

section ConcreteInputs

/-! Concrete filesystems, resolvers and tokens used by the witnesses and
counterexamples below. -/

def locSrc : Location := { filePath := "src.css", line := 1, column := 0 }

def tokenB : Token := { name := "b", importedName := none, originalLocation := locSrc }

def tokenC : Token :=
  { name := "c", importedName := some "b", originalLocation := locSrc }

def entryBC : ValueImportEntry := { localTokenName := "c", importedTokenName := "b" }

def stEmpty : LoopState := { cache := [], deps := [], toks := [], reads := [] }

def stubLoadF : LoadFn := fun cache _ => (.fuelOut, cache, [])

def noResolver : ResolverFn := fun _ _ => none

/-- A sheet with one class selector `box` and nothing else. -/
def sheetBox : ParsedSheet :=
  { atImports := [], classSelectors := [⟨"box", locSrc⟩],
    localTokenNames := ["box"], atValues := [] }

/-- A filesystem with only `b.css`, containing `sheetBox`. -/
def envBox : Env :=
  [("b.css", { mtime := 7, transformerDeps := [], sheet := sheetBox })]

def ctxBox : Ctx := { env := envBox, resolver := noResolver }

end ConcreteInputs

section SimpleClaims

/-- C5: `isIgnoredSpecifier` is true exactly for specifiers beginning with
`http://` or `https://`, and an ignored `@import` specifier is skipped by
the import loop before any resolution attempt: the loop continues with an
unchanged state (so the specifier raises no error and contributes nothing
to the dependencies), for every resolver, including one that would fail on
it. -/
theorem claimC5_theorem :
    (∀ s, isIgnoredSpecifier s =
      (strStartsWith s "http://" || strStartsWith s "https://")) ∧
    ∀ (resolver : ResolverFn) (loadF : LoadFn) (filePath spec : String)
      (rest : List (Option String)) (st : LoopState),
      isIgnoredSpecifier spec = true →
      processAtImports resolver loadF filePath (some spec :: rest) st =
        processAtImports resolver loadF filePath rest st := by
  refine ⟨fun s => rfl, ?_⟩
  intro resolver loadF filePath spec rest st h
  simp only [processAtImports, h, if_true]

theorem claimC5_witness :
    isIgnoredSpecifier "https://example.com/x.css" = true ∧
    processAtImports noResolver stubLoadF "a.css"
        [some "https://example.com/x.css"] stEmpty =
      processAtImports noResolver stubLoadF "a.css" [] stEmpty :=
  ⟨by decide,
   claimC5_theorem.2 noResolver stubLoadF "a.css" "https://example.com/x.css"
     [] stEmpty (by decide)⟩

/-- C6: every token emitted for a `@value ... from` import declaration
comes from a token `src` of the loaded source sheet: its name is the local
alias of the first matching import entry, its `importedName` is set iff
the local alias differs from the imported name, and its original location
is the source sheet token's location (not a location of the importing
sheet). -/
theorem claimC6_theorem (imports : List ValueImportEntry) (toks : List Token)
    (t : Token) (ht : t ∈ valueImportTokens imports toks) :
    ∃ src ∈ toks, ∃ m,
      imports.find? (fun i => i.importedTokenName == src.name) = some m ∧
      t.name = m.localTokenName ∧
      t.originalLocation = src.originalLocation ∧
      (m.localTokenName = m.importedTokenName → t.importedName = none) ∧
      (m.localTokenName ≠ m.importedTokenName →
        t.importedName = some m.importedTokenName) := by
  unfold valueImportTokens at ht
  obtain ⟨src, hsrc, hmap⟩ := List.mem_filterMap.mp ht
  refine ⟨src, hsrc, ?_⟩
  cases hfind : imports.find? (fun i => i.importedTokenName == src.name) with
  | none =>
    simp only [hfind] at hmap
    exact Option.noConfusion hmap
  | some m =>
    simp only [hfind] at hmap
    refine ⟨m, rfl, ?_⟩
    by_cases hlm : m.localTokenName = m.importedTokenName
    · have hb : (m.localTokenName == m.importedTokenName) = true := by
        simpa using hlm
      simp only [hb, if_true, Option.some.injEq] at hmap
      subst hmap
      simp [hlm]
    · have hb : (m.localTokenName == m.importedTokenName) = false := by
        simpa using hlm
      simp only [hb, Bool.false_eq_true, if_false, Option.some.injEq] at hmap
      subst hmap
      simp [hlm]

theorem claimC6_witness :
    tokenC ∈ valueImportTokens [entryBC] [tokenB] ∧
    ∃ src ∈ [tokenB], ∃ m,
      [entryBC].find? (fun i => i.importedTokenName == src.name) = some m ∧
      tokenC.name = m.localTokenName ∧
      tokenC.originalLocation = src.originalLocation ∧
      (m.localTokenName = m.importedTokenName → tokenC.importedName = none) ∧
      (m.localTokenName ≠ m.importedTokenName →
        tokenC.importedName = some m.importedTokenName) :=
  ⟨by decide, claimC6_theorem [entryBC] [tokenB] tokenC (by decide)⟩

/-- C7: an import entry whose imported token name matches no token of the
source sheet contributes nothing: alone it yields no token, and dropping
it from an import declaration leaves the emitted token list unchanged
(no error is raised — the entry is simply skipped). -/
theorem claimC7_theorem (pre post : List ValueImportEntry)
    (m : ValueImportEntry) (toks : List Token)
    (hmiss : ∀ t ∈ toks, m.importedTokenName ≠ t.name) :
    valueImportTokens [m] toks = [] ∧
    valueImportTokens (pre ++ m :: post) toks =
      valueImportTokens (pre ++ post) toks := by
  have hm : ∀ t ∈ toks, (m.importedTokenName == t.name) = false := by
    intro t htm
    simpa using hmiss t htm
  constructor
  · unfold valueImportTokens
    rw [List.filterMap_eq_nil_iff]
    intro t htm
    have hfind : List.find? (fun i => i.importedTokenName == t.name) [m] = none := by
      simp [List.find?_eq_none, hm t htm]
    simp only [hfind]
  · unfold valueImportTokens
    apply List.filterMap_congr
    intro t htm
    have hcons :
        List.find? (fun i => i.importedTokenName == t.name) (m :: post) =
          List.find? (fun i => i.importedTokenName == t.name) post := by
      rw [List.find?_cons_of_neg]
      simp [hm t htm]
    rw [List.find?_append, List.find?_append, hcons]

theorem claimC7_witness :
    (∀ t ∈ [tokenB], ("zzz" : String) ≠ t.name) ∧
    valueImportTokens [⟨"x", "zzz"⟩] [tokenB] = [] ∧
    valueImportTokens ([entryBC] ++ ⟨"x", "zzz"⟩ :: []) [tokenB] =
      valueImportTokens ([entryBC] ++ []) [tokenB] :=
  ⟨by decide, claimC7_theorem [entryBC] [] ⟨"x", "zzz"⟩ [tokenB] (by decide)⟩

/-- C9: when an import declaration lists the same imported token name
twice, the later entry is dead: for every token of the source sheet the
code looks up the *first* matching entry, so dropping the later duplicate
does not change the emitted tokens. -/
theorem claimC9_theorem (pre post : List ValueImportEntry)
    (e2 : ValueImportEntry) (toks : List Token) (e1 : ValueImportEntry)
    (he1 : e1 ∈ pre) (hdup : e1.importedTokenName = e2.importedTokenName) :
    valueImportTokens (pre ++ e2 :: post) toks =
      valueImportTokens (pre ++ post) toks := by
  unfold valueImportTokens
  apply List.filterMap_congr
  intro t _
  rw [List.find?_append, List.find?_append]
  cases hf : pre.find? (fun i => i.importedTokenName == t.name) with
  | some m => rfl
  | none =>
    have h1 : ¬ ((fun i : ValueImportEntry => i.importedTokenName == t.name) e1
        = true) := by
      have := List.find?_eq_none.mp hf e1 he1
      simpa using this
    have hcons :
        List.find? (fun i => i.importedTokenName == t.name) (e2 :: post) =
          List.find? (fun i => i.importedTokenName == t.name) post := by
      rw [List.find?_cons_of_neg]
      simpa [← hdup] using h1
    rw [hcons]

theorem claimC9_witness :
    ⟨"c", "b"⟩ ∈ ([⟨"c", "b"⟩] : List ValueImportEntry) ∧
    valueImportTokens ([⟨"c", "b"⟩] ++ ⟨"d", "b"⟩ :: []) [tokenB] =
      valueImportTokens ([⟨"c", "b"⟩] ++ []) [tokenB] :=
  ⟨by decide,
   claimC9_theorem [⟨"c", "b"⟩] [] ⟨"d", "b"⟩ [tokenB] ⟨"c", "b"⟩
     (by decide) (by decide)⟩

/-- C8: when the configured transformer returns `false` for a file,
`readCSS` behaves exactly as if no transformer were configured, and the
unconfigured behaviour is: css is the raw source, no map, an empty
dependency list. -/
theorem claimC8_theorem (t : TransformerFn) (source filePath : String)
    (h : t source filePath = .notHandled) :
    readCSS (some t) source filePath = readCSS none source filePath ∧
    readCSS none source filePath =
      .ok { css := source, map := none, dependencies := [] } := by
  constructor
  · simp only [readCSS, h]
  · rfl

theorem claimC8_witness :
    defaultTransformer (fun _ _ => .notHandled) (fun _ _ => .notHandled)
        "body" "a.css" = .notHandled ∧
    readCSS (some (defaultTransformer (fun _ _ => .notHandled)
        (fun _ _ => .notHandled))) "body" "a.css" =
      readCSS none "body" "a.css" ∧
    readCSS none "body" "a.css" =
      .ok { css := "body", map := none, dependencies := [] } :=
  ⟨by decide,
   claimC8_theorem (defaultTransformer (fun _ _ => .notHandled)
     (fun _ _ => .notHandled)) "body" "a.css" (by decide)⟩

end SimpleClaims

section Invariants

/-- The bindings of a cache, as a plain list (used to state invariants by
list membership, so that the invariants are decidable on concrete
caches). -/
def cacheMembers (cache : Cache) : List (String × CacheEntry) := cache

/-- The bindings of the filesystem, as a plain list. -/
def envMembers (env : Env) : List (String × FileData) := env

/-- A well-formed stored result for path `p`: it is what assembly step 9
produces — a first-occurrence de-duplication of some accumulated lists,
with `p` itself filtered out of the dependencies. -/
def ResultWF (p : String) (r : LoadResult) : Prop :=
  ∃ ds ts, r = mkLoadResult p ds ts

/-- Every binding of the cache holds a well-formed result for its key. -/
def CacheWF (cache : Cache) : Prop :=
  ∀ pe ∈ cacheMembers cache, ResultWF pe.1 pe.2.result

theorem ResultWF.not_self_mem {p : String} {r : LoadResult}
    (h : ResultWF p r) : p ∉ r.dependencies := by
  obtain ⟨ds, ts, rfl⟩ := h
  exact mkLoadResult_not_self_mem p ds ts

theorem ResultWF.deps_nodup {p : String} {r : LoadResult}
    (h : ResultWF p r) : r.dependencies.Nodup := by
  obtain ⟨ds, ts, rfl⟩ := h
  exact mkLoadResult_deps_nodup p ds ts

theorem ResultWF.tokens_nodup {p : String} {r : LoadResult}
    (h : ResultWF p r) : r.tokens.Nodup := by
  obtain ⟨ds, ts, rfl⟩ := h
  exact mkLoadResult_tokens_nodup p ds ts

theorem cacheGet_cacheSet_self (cache : Cache) (p : String) (e : CacheEntry) :
    cacheGet (cacheSet cache p e) p = some e := by
  simp [cacheGet, cacheSet, alookup]

theorem cacheGet_cacheSet_isSome {cache : Cache} {d : String}
    (p : String) (e : CacheEntry) (h : (cacheGet cache d).isSome = true) :
    (cacheGet (cacheSet cache p e) d).isSome = true := by
  by_cases hpd : p = d
  · subst hpd
    rw [cacheGet_cacheSet_self]
    rfl
  · simpa [cacheGet, cacheSet, alookup, hpd] using h

theorem CacheWF_cacheSet {cache : Cache} {p : String} {e : CacheEntry}
    (h : CacheWF cache) (hr : ResultWF p e.result) :
    CacheWF (cacheSet cache p e) := by
  intro pe hpe
  rcases List.mem_cons.mp hpe with heq | hmem
  · subst heq
    exact hr
  · exact h pe hmem

end Invariants

section ClaimC2

/-- C2: if a top-level `load` is called while the in-flight flag is set,
it fails immediately with the concurrent-load error and changes nothing;
when the flag is clear, the call is accepted (it is handed to `_load`) and
the flag is clear again on completion, whether `_load` succeeded or
failed. -/
theorem claimC2_theorem (ctx : Ctx) (fuel : Nat) (loc : LocatorState)
    (p : String) :
    (loc.loading = true →
      Locator.load ctx fuel loc p = (.err .concurrentLoad, loc, [])) ∧
    (loc.loading = false →
      Locator.load ctx fuel loc p =
        ((loadAux ctx fuel loc.cache p).1,
         { cache := (loadAux ctx fuel loc.cache p).2.1, loading := false },
         (loadAux ctx fuel loc.cache p).2.2)) := by
  constructor
  · intro h
    simp [Locator.load, h]
  · intro h
    simp [Locator.load, h]

theorem claimC2_witness :
    Locator.load ctxBox 2 ⟨[], true⟩ "b.css" =
      (.err .concurrentLoad, ⟨[], true⟩, []) ∧
    (Locator.load ctxBox 2 ⟨[], false⟩ "b.css").2.1.loading = false :=
  ⟨(claimC2_theorem ctxBox 2 ⟨[], true⟩ "b.css").1 rfl,
   by rw [(claimC2_theorem ctxBox 2 ⟨[], false⟩ "b.css").2 rfl]⟩

end ClaimC2

section ClaimC10

theorem depsOutdated_stat_error (env : Env) (cache : Cache) (d : String)
    (ed : CacheEntry) (post : List String) (hd : cacheGet cache d = some ed)
    (hdel : env.statMtime d = none) :
    ∀ pre : List String,
      (∀ d' ∈ pre, ∃ e', cacheGet cache d' = some e' ∧
        env.statMtime d' = some e'.mtime) →
      depsOutdated env cache (pre ++ d :: post) = .error (.statError d) := by
  intro pre
  induction pre with
  | nil =>
    intro _
    simp only [List.nil_append, depsOutdated, hd, hdel]
  | cons d' rest ih =>
    intro hpre
    obtain ⟨e', he', hm'⟩ := hpre d' (List.mem_cons_self d' rest)
    have hrest := ih fun x hx => hpre x (List.mem_cons_of_mem d' hx)
    simp only [List.cons_append, depsOutdated, he', hm', if_neg, ne_eq,
      not_true_eq_false, if_false]
    exact hrest

/-- C10: when a file is cached with a fresh mtime, a dependency listed in
its cache entry also has a cache entry, every dependency listed before it
is fresh, but the dependency's file has been deleted from disk, the next
load fails with the stat error of that dependency: the staleness probe
propagates the stat failure instead of declaring the entry stale, so the
file is not reloaded (and nothing is read). -/
theorem claimC10_theorem (ctx : Ctx) (cache : Cache) (filePath d : String)
    (e ed : CacheEntry) (pre post : List String) (fuel : Nat)
    (hentry : cacheGet cache filePath = some e)
    (hmtime : ctx.env.statMtime filePath = some e.mtime)
    (hdeps : e.result.dependencies = pre ++ d :: post)
    (hpre : ∀ d' ∈ pre, ∃ e', cacheGet cache d' = some e' ∧
      ctx.env.statMtime d' = some e'.mtime)
    (hd : cacheGet cache d = some ed)
    (hdel : ctx.env.statMtime d = none) :
    isCacheOutdated ctx.env cache filePath = .error (.statError d) ∧
    loadAux ctx (fuel + 1) cache filePath = (.err (.statError d), cache, []) := by
  have hout : isCacheOutdated ctx.env cache filePath = .error (.statError d) := by
    simp only [isCacheOutdated, hentry, hmtime]
    rw [if_neg (by simp), hdeps]
    exact depsOutdated_stat_error ctx.env cache d ed post hd hdel pre hpre
  refine ⟨hout, ?_⟩
  simp only [loadAux, hout]

/-- A filesystem for the C10 witness: `f.css` exists, its recorded
dependency `d.css` does not. -/
def envDel : Env :=
  [("f.css", { mtime := 1, transformerDeps := [], sheet := sheetBox })]

def resDel : LoadResult := { dependencies := ["d.css"], tokens := [] }

def cacheDel : Cache :=
  [("f.css", { mtime := 1, result := resDel }),
   ("d.css", { mtime := 5, result := { dependencies := [], tokens := [] } })]

def ctxDel : Ctx := { env := envDel, resolver := noResolver }

theorem claimC10_witness :
    isCacheOutdated ctxDel.env cacheDel "f.css" = .error (.statError "d.css") ∧
    loadAux ctxDel (0 + 1) cacheDel "f.css" =
      (.err (.statError "d.css"), cacheDel, []) :=
  claimC10_theorem ctxDel cacheDel "f.css" "d.css"
    { mtime := 1, result := resDel }
    { mtime := 5, result := { dependencies := [], tokens := [] } }
    [] [] 0 (by decide) (by decide) (by decide) (by simp) (by decide) (by decide)

end ClaimC10

section ClaimC1

/-- A stylesheet that imports itself via `@import "./a.css"`. -/
def sheetSelf : ParsedSheet :=
  { atImports := [some "./a.css"], classSelectors := [],
    localTokenNames := [], atValues := [] }

def fdSelf : FileData := { mtime := 0, transformerDeps := [], sheet := sheetSelf }

def envSelf : Env := [("a.css", fdSelf)]

def resolveSelf : ResolverFn := fun spec _ =>
  if spec = "./a.css" then some "a.css" else none

def ctxSelf : Ctx := { env := envSelf, resolver := resolveSelf }

/-- On the self-importing stylesheet with an empty cache, `_load` runs out
of any amount of fuel, leaves the cache empty, and re-reads the file at
every level of the recursion: the cache is only populated *after* a load
completes, so the re-entry of the cycle never finds an entry. -/
theorem loadAux_ctxSelf_fuelOut : ∀ fuel,
    loadAux ctxSelf fuel ([] : Cache) "a.css" =
      (.fuelOut, ([] : Cache), List.replicate fuel "a.css") := by
  intro fuel
  induction fuel with
  | zero => rfl
  | succ n ih =>
    have h1 : isCacheOutdated ctxSelf.env ([] : Cache) "a.css" = .ok true := rfl
    have h2 : ctxSelf.env.readData "a.css" = some fdSelf := by decide
    have h3 : isIgnoredSpecifier "./a.css" = false := by decide
    have h4 : ctxSelf.resolver "./a.css" "a.css" = some "a.css" := by decide
    simp [loadAux, h1, h2, h3, h4, ih, processAtImports, loadBody,
      afterImports, finishValues, loadIntoState, fdSelf, sheetSelf,
      List.replicate_succ]

/-- C1 (counterexample): a stylesheet importing itself does *not*
terminate — re-entry into a file still being loaded finds no cache entry,
because an entry is stored only when a load completes; no amount of fuel
completes the top-level load. -/
theorem claimC1_counterexample :
    ¬ loadTerminates ctxSelf { cache := [], loading := false } "a.css" := by
  rintro ⟨fuel, hfuel⟩
  exact hfuel (by simp [Locator.load, loadAux_ctxSelf_fuelOut fuel])

/-- C1 (amended): the cache check breaks re-entry only into files whose
load already *completed*: when a file has a cache entry and the staleness
probe reports it fresh, `_load` returns the cached result immediately,
reading nothing and leaving the cache unchanged; for a well-formed cache
the returned dependency list omits the file itself.  (A true cycle entered
while the file is still in flight finds no cache entry and diverges, as
the counterexample shows.) -/
theorem claimC1_theorem (ctx : Ctx) (cache : Cache) (p : String)
    (e : CacheEntry) (fuel : Nat) (hwf : CacheWF cache)
    (hfresh : isCacheOutdated ctx.env cache p = .ok false)
    (he : cacheGet cache p = some e) :
    loadAux ctx (fuel + 1) cache p = (.ok e.result, cache, []) ∧
    p ∉ e.result.dependencies := by
  refine ⟨?_, (hwf _ (alookup_mem he)).not_self_mem⟩
  simp only [loadAux, hfresh, he]

def tokenBox : Token :=
  { name := "box", importedName := none, originalLocation := locSrc }

def resBox : LoadResult := { dependencies := [], tokens := [tokenBox] }

def cacheBoxAfter : Cache := [("b.css", { mtime := 7, result := resBox })]

theorem claimC1_witness :
    loadAux ctxBox (0 + 1) cacheBoxAfter "b.css" =
      (.ok resBox, cacheBoxAfter, []) ∧
    "b.css" ∉ resBox.dependencies :=
  claimC1_theorem ctxBox cacheBoxAfter "b.css" { mtime := 7, result := resBox }
    0
    (by
      intro pe hpe
      simp only [cacheMembers, cacheBoxAfter, List.mem_singleton] at hpe
      subst hpe
      exact ⟨[], [tokenBox], by decide⟩)
    rfl rfl

end ClaimC1

section ClaimC4

/-- The contract the recursive entry point handed to the loops satisfies
for the well-formedness invariant: it preserves cache well-formedness and
only returns well-formed results. -/
def LoadFnWF (f : LoadFn) : Prop :=
  ∀ cache q, CacheWF cache →
    CacheWF (f cache q).2.1 ∧ ∀ r, (f cache q).1 = .ok r → ResultWF q r

theorem loadIntoState_wf {loadF : LoadFn} (hF : LoadFnWF loadF)
    (fromPath : String) (tokensOf : LoadResult → List Token) (st : LoopState)
    (k : LoopState → LoadOut Unit × LoopState)
    (hk : ∀ st2, CacheWF st2.cache → CacheWF ((k st2).2).cache)
    (h : CacheWF st.cache) :
    CacheWF ((loadIntoState loadF fromPath tokensOf st k).2).cache := by
  unfold loadIntoState
  cases hload : loadF st.cache fromPath with
  | mk out rest2 =>
    obtain ⟨c2, r2⟩ := rest2
    have hwf2 : CacheWF c2 := by
      have h2 := (hF st.cache fromPath h).1
      rw [hload] at h2
      exact h2
    cases out with
    | ok r => exact hk _ hwf2
    | err e => exact hwf2
    | fuelOut => exact hwf2

theorem processAtImports_wf (resolver : ResolverFn) {loadF : LoadFn}
    (filePath : String) (hF : LoadFnWF loadF) :
    ∀ (l : List (Option String)) (st : LoopState), CacheWF st.cache →
      CacheWF ((processAtImports resolver loadF filePath l st).2).cache := by
  intro l
  induction l with
  | nil => intro st h; exact h
  | cons hd rest ih =>
    intro st h
    cases hd with
    | none => exact ih st h
    | some spec =>
      simp only [processAtImports]
      by_cases hig : isIgnoredSpecifier spec = true
      · rw [if_pos hig]
        exact ih st h
      · rw [if_neg hig]
        cases hres : resolver spec filePath with
        | none => exact h
        | some fromPath => exact loadIntoState_wf hF fromPath _ st _ ih h

theorem processAtValues_wf (resolver : ResolverFn) {loadF : LoadFn}
    (filePath : String) (hF : LoadFnWF loadF) :
    ∀ (l : List ParsedAtValue) (st : LoopState), CacheWF st.cache →
      CacheWF ((processAtValues resolver loadF filePath l st).2).cache := by
  intro l
  induction l with
  | nil => intro st h; exact h
  | cons hd rest ih =>
    intro st h
    cases hd with
    | valueDeclaration name loc => exact ih _ h
    | valueImportDeclaration source imports =>
      simp only [processAtValues]
      by_cases hig : isIgnoredSpecifier source = true
      · rw [if_pos hig]
        exact ih st h
      · rw [if_neg hig]
        cases hres : resolver source filePath with
        | none => exact h
        | some fromPath => exact loadIntoState_wf hF fromPath _ st _ ih h

theorem finishValues_wf (filePath : String) (mtime : Int)
    (out : LoadOut Unit × LoopState) (h : CacheWF (out.2).cache) :
    CacheWF (finishValues filePath mtime out).2.1 ∧
    ∀ r, (finishValues filePath mtime out).1 = .ok r → ResultWF filePath r := by
  obtain ⟨res, st⟩ := out
  cases res with
  | err e => exact ⟨h, fun r hr => by cases hr⟩
  | fuelOut => exact ⟨h, fun r hr => by cases hr⟩
  | ok u =>
    refine ⟨CacheWF_cacheSet h ⟨st.deps, st.toks, rfl⟩, fun r hr => ?_⟩
    obtain rfl : mkLoadResult filePath st.deps st.toks = r := by
      cases hr
      rfl
    exact ⟨st.deps, st.toks, rfl⟩

theorem afterImports_wf (ctx : Ctx) {loadF : LoadFn} (hF : LoadFnWF loadF)
    (filePath : String) (fd : FileData) (out : LoadOut Unit × LoopState)
    (h : CacheWF (out.2).cache) :
    CacheWF (afterImports ctx loadF filePath fd out).2.1 ∧
    ∀ r, (afterImports ctx loadF filePath fd out).1 = .ok r →
      ResultWF filePath r := by
  obtain ⟨res, st1⟩ := out
  cases res with
  | err e => exact ⟨h, fun r hr => by cases hr⟩
  | fuelOut => exact ⟨h, fun r hr => by cases hr⟩
  | ok u =>
    exact finishValues_wf filePath fd.mtime _
      (processAtValues_wf ctx.resolver filePath hF fd.sheet.atValues _ h)

theorem loadBody_wf (ctx : Ctx) {loadF : LoadFn} (hF : LoadFnWF loadF)
    (filePath : String) (fd : FileData) (cache : Cache) (h : CacheWF cache) :
    CacheWF (loadBody ctx loadF filePath fd cache).2.1 ∧
    ∀ r, (loadBody ctx loadF filePath fd cache).1 = .ok r →
      ResultWF filePath r := by
  unfold loadBody
  exact afterImports_wf ctx hF filePath fd _
    (processAtImports_wf ctx.resolver filePath hF fd.sheet.atImports _ h)

theorem loadAux_wf (ctx : Ctx) : ∀ fuel, LoadFnWF (loadAux ctx fuel) := by
  intro fuel
  induction fuel with
  | zero =>
    intro cache q h
    exact ⟨h, fun r hr => by cases hr⟩
  | succ n ih =>
    intro cache q h
    simp only [loadAux]
    cases hout : isCacheOutdated ctx.env cache q with
    | error e => exact ⟨h, fun r hr => by cases hr⟩
    | ok b =>
      cases b with
      | false =>
        cases hget : cacheGet cache q with
        | none => exact ⟨h, fun r hr => by cases hr⟩
        | some entry =>
          refine ⟨h, fun r hr => ?_⟩
          obtain rfl : entry.result = r := by
            cases hr
            rfl
          exact h _ (alookup_mem hget)
      | true =>
        cases hread : ctx.env.readData q with
        | none => exact ⟨h, fun r hr => by cases hr⟩
        | some fd => exact loadBody_wf ctx ih q fd cache h

/-- C4: a successful load (over any cache whose entries were themselves
produced by the assembly step) returns a dependency list that excludes the
file itself and contains each path at most once (in first-occurrence order
by construction of `uniqueList`), and a token list with no structural
duplicates. -/
theorem claimC4_theorem (ctx : Ctx) (fuel : Nat) (cache : Cache) (p : String)
    (r : LoadResult) (hwf : CacheWF cache)
    (hok : (loadAux ctx fuel cache p).1 = .ok r) :
    p ∉ r.dependencies ∧ r.dependencies.Nodup ∧ r.tokens.Nodup := by
  have hres := (loadAux_wf ctx fuel cache p hwf).2 r hok
  exact ⟨hres.not_self_mem, hres.deps_nodup, hres.tokens_nodup⟩

theorem claimC4_witness :
    CacheWF ([] : Cache) ∧
    (loadAux ctxBox 1 ([] : Cache) "b.css").1 = .ok resBox ∧
    ("b.css" ∉ resBox.dependencies ∧ resBox.dependencies.Nodup ∧
      resBox.tokens.Nodup) :=
  have hwf : CacheWF ([] : Cache) := fun pe hpe => absurd hpe (List.not_mem_nil pe)
  ⟨hwf, by decide, claimC4_theorem ctxBox 1 [] "b.css" resBox hwf (by decide)⟩

end ClaimC4

section ClaimC3

/-- A binding of the cache is fresh w.r.t. the filesystem: the stored
mtime equals the file's current mtime, and every dependency recorded in
the stored result has a cache entry of its own. -/
def EntryFresh (env : Env) (cache : Cache) (pe : String × CacheEntry) : Prop :=
  env.statMtime pe.1 = some pe.2.mtime ∧
  ∀ d ∈ pe.2.result.dependencies, (cacheGet cache d).isSome = true

/-- Every binding of the cache is fresh. -/
def CacheFresh (env : Env) (cache : Cache) : Prop :=
  ∀ pe ∈ cacheMembers cache, EntryFresh env cache pe

/-- No file of the filesystem yields transformer-reported dependencies
(the transformer is unconfigured, handles no file, or reports none). -/
def NoTransformerDeps (env : Env) : Prop :=
  ∀ pfd ∈ envMembers env, pfd.2.transformerDeps = ([] : List String)

/-- Cache domain growth: every path bound in the first cache is bound in
the second. -/
def CacheLe (c c2 : Cache) : Prop :=
  ∀ d, (cacheGet c d).isSome = true → (cacheGet c2 d).isSome = true

/-- Every dependency of the list has a cache entry. -/
def DepsClosed (cache : Cache) (deps : List String) : Prop :=
  ∀ d ∈ deps, (cacheGet cache d).isSome = true

/-- A loop state whose cache is fresh and whose accumulated dependencies
all have cache entries. -/
def StFresh (env : Env) (st : LoopState) : Prop :=
  CacheFresh env st.cache ∧ DepsClosed st.cache st.deps

/-- The contract the recursive entry point handed to the loops satisfies
for the freshness invariant: it preserves cache freshness, only grows the
cache domain, and on success leaves a cache entry for the loaded file
holding exactly the returned result. -/
def LoadFnFresh (env : Env) (f : LoadFn) : Prop :=
  ∀ cache q, CacheFresh env cache →
    CacheFresh env (f cache q).2.1 ∧
    CacheLe cache (f cache q).2.1 ∧
    ∀ r, (f cache q).1 = .ok r →
      ∃ e, cacheGet (f cache q).2.1 q = some e ∧ e.result = r

theorem CacheLe.rfl (c : Cache) : CacheLe c c := fun _ h => h

theorem CacheLe.trans {a b c : Cache} (h1 : CacheLe a b) (h2 : CacheLe b c) :
    CacheLe a c := fun d hd => h2 d (h1 d hd)

theorem CacheLe.set (c : Cache) (p : String) (e : CacheEntry) :
    CacheLe c (cacheSet c p e) :=
  fun _ hd => cacheGet_cacheSet_isSome p e hd

theorem CacheFresh_cacheSet {env : Env} {cache : Cache} {p : String}
    {e : CacheEntry} (h : CacheFresh env cache)
    (hm : env.statMtime p = some e.mtime)
    (hdeps : ∀ d ∈ e.result.dependencies, (cacheGet cache d).isSome = true) :
    CacheFresh env (cacheSet cache p e) := by
  intro pe hpe
  rcases List.mem_cons.mp hpe with heq | hmem
  · subst heq
    exact ⟨hm, fun d hd => cacheGet_cacheSet_isSome p e (hdeps d hd)⟩
  · obtain ⟨h1, h2⟩ := h pe hmem
    exact ⟨h1, fun d hd => cacheGet_cacheSet_isSome p e (h2 d hd)⟩

theorem loadIntoState_fresh {env : Env} {loadF : LoadFn}
    (hF : LoadFnFresh env loadF) (fromPath : String)
    (tokensOf : LoadResult → List Token) (st : LoopState)
    (k : LoopState → LoadOut Unit × LoopState)
    (hk : ∀ st2, StFresh env st2 →
      StFresh env ((k st2).2) ∧ CacheLe st2.cache ((k st2).2).cache)
    (h : StFresh env st) :
    StFresh env ((loadIntoState loadF fromPath tokensOf st k).2) ∧
    CacheLe st.cache ((loadIntoState loadF fromPath tokensOf st k).2).cache := by
  unfold loadIntoState
  cases hload : loadF st.cache fromPath with
  | mk out rest2 =>
    obtain ⟨c2, r2⟩ := rest2
    obtain ⟨hfr, hle, hok⟩ := hF st.cache fromPath h.1
    rw [hload] at hfr hle hok
    have hfr2 : CacheFresh env c2 := hfr
    have hle2 : CacheLe st.cache c2 := hle
    cases out with
    | err e => exact ⟨⟨hfr2, fun d hd => hle2 d (h.2 d hd)⟩, hle2⟩
    | fuelOut => exact ⟨⟨hfr2, fun d hd => hle2 d (h.2 d hd)⟩, hle2⟩
    | ok r =>
      obtain ⟨e, hge, hres⟩ := hok r rfl
      have hst2 : StFresh env
          { cache := c2, deps := st.deps ++ fromPath :: r.dependencies,
            toks := st.toks ++ tokensOf r, reads := st.reads ++ r2 } := by
        refine ⟨hfr2, fun d hd => ?_⟩
        rcases List.mem_append.mp hd with hd1 | hd2
        · exact hle2 d (h.2 d hd1)
        · rcases List.mem_cons.mp hd2 with heq | hd3
          · subst heq
            rw [hge]
            rfl
          · have hclose := (hfr2 _ (alookup_mem hge)).2
            rw [hres] at hclose
            exact hclose d hd3
      obtain ⟨hst3, hle3⟩ := hk _ hst2
      exact ⟨hst3, hle2.trans hle3⟩

theorem processAtImports_fresh {env : Env} (resolver : ResolverFn)
    {loadF : LoadFn} (filePath : String) (hF : LoadFnFresh env loadF) :
    ∀ (l : List (Option String)) (st : LoopState), StFresh env st →
      StFresh env ((processAtImports resolver loadF filePath l st).2) ∧
      CacheLe st.cache ((processAtImports resolver loadF filePath l st).2).cache := by
  intro l
  induction l with
  | nil => intro st h; exact ⟨h, CacheLe.rfl _⟩
  | cons hd rest ih =>
    intro st h
    cases hd with
    | none => exact ih st h
    | some spec =>
      simp only [processAtImports]
      by_cases hig : isIgnoredSpecifier spec = true
      · rw [if_pos hig]
        exact ih st h
      · rw [if_neg hig]
        cases hres : resolver spec filePath with
        | none => exact ⟨h, CacheLe.rfl _⟩
        | some fromPath => exact loadIntoState_fresh hF fromPath _ st _ ih h

theorem processAtValues_fresh {env : Env} (resolver : ResolverFn)
    {loadF : LoadFn} (filePath : String) (hF : LoadFnFresh env loadF) :
    ∀ (l : List ParsedAtValue) (st : LoopState), StFresh env st →
      StFresh env ((processAtValues resolver loadF filePath l st).2) ∧
      CacheLe st.cache ((processAtValues resolver loadF filePath l st).2).cache := by
  intro l
  induction l with
  | nil => intro st h; exact ⟨h, CacheLe.rfl _⟩
  | cons hd rest ih =>
    intro st h
    cases hd with
    | valueDeclaration name loc => exact ih _ ⟨h.1, h.2⟩
    | valueImportDeclaration source imports =>
      simp only [processAtValues]
      by_cases hig : isIgnoredSpecifier source = true
      · rw [if_pos hig]
        exact ih st h
      · rw [if_neg hig]
        cases hres : resolver source filePath with
        | none => exact ⟨h, CacheLe.rfl _⟩
        | some fromPath => exact loadIntoState_fresh hF fromPath _ st _ ih h

theorem finishValues_fresh {env : Env} (filePath : String) (mtime : Int)
    (out : LoadOut Unit × LoopState)
    (hm : env.statMtime filePath = some mtime)
    (h : StFresh env out.2) :
    CacheFresh env (finishValues filePath mtime out).2.1 ∧
    CacheLe (out.2).cache (finishValues filePath mtime out).2.1 ∧
    ∀ r, (finishValues filePath mtime out).1 = .ok r →
      ∃ e, cacheGet (finishValues filePath mtime out).2.1 filePath = some e ∧
        e.result = r := by
  obtain ⟨res, st⟩ := out
  cases res with
  | err e => exact ⟨h.1, CacheLe.rfl _, fun r hr => by cases hr⟩
  | fuelOut => exact ⟨h.1, CacheLe.rfl _, fun r hr => by cases hr⟩
  | ok u =>
    refine ⟨?_, CacheLe.set _ _ _, fun r hr => ?_⟩
    · apply CacheFresh_cacheSet h.1 hm
      intro d hd
      exact h.2 d (mkLoadResult_deps_subset filePath st.deps st.toks d hd)
    · obtain rfl : mkLoadResult filePath st.deps st.toks = r := by
        cases hr
        rfl
      exact ⟨_, cacheGet_cacheSet_self _ _ _, rfl⟩

theorem afterImports_fresh (ctx : Ctx) {loadF : LoadFn}
    (hF : LoadFnFresh ctx.env loadF) (filePath : String) (fd : FileData)
    (out : LoadOut Unit × LoopState)
    (hm : ctx.env.statMtime filePath = some fd.mtime)
    (h : StFresh ctx.env out.2) :
    CacheFresh ctx.env (afterImports ctx loadF filePath fd out).2.1 ∧
    CacheLe (out.2).cache (afterImports ctx loadF filePath fd out).2.1 ∧
    ∀ r, (afterImports ctx loadF filePath fd out).1 = .ok r →
      ∃ e, cacheGet (afterImports ctx loadF filePath fd out).2.1 filePath =
        some e ∧ e.result = r := by
  obtain ⟨res, st1⟩ := out
  cases res with
  | err e => exact ⟨h.1, CacheLe.rfl _, fun r hr => by cases hr⟩
  | fuelOut => exact ⟨h.1, CacheLe.rfl _, fun r hr => by cases hr⟩
  | ok u =>
    obtain ⟨hv, hvle⟩ := processAtValues_fresh ctx.resolver filePath hF
      fd.sheet.atValues
      { st1 with toks := (st1.toks ++
          classSelectorTokens fd.sheet.localTokenNames
            fd.sheet.classSelectors) } ⟨h.1, h.2⟩
    obtain ⟨hf1, hf2, hf3⟩ := finishValues_fresh filePath fd.mtime _ hm hv
    exact ⟨hf1, hvle.trans hf2, hf3⟩

theorem statMtime_eq_of_readData {env : Env} {p : String} {fd : FileData}
    (h : env.readData p = some fd) : env.statMtime p = some fd.mtime := by
  unfold Env.statMtime
  unfold Env.readData at h
  rw [h]
  rfl

theorem loadBody_fresh (ctx : Ctx) {loadF : LoadFn}
    (hF : LoadFnFresh ctx.env loadF) (filePath : String) (fd : FileData)
    (cache : Cache) (hread : ctx.env.readData filePath = some fd)
    (hntd : NoTransformerDeps ctx.env) (h : CacheFresh ctx.env cache) :
    CacheFresh ctx.env (loadBody ctx loadF filePath fd cache).2.1 ∧
    CacheLe cache (loadBody ctx loadF filePath fd cache).2.1 ∧
    ∀ r, (loadBody ctx loadF filePath fd cache).1 = .ok r →
      ∃ e, cacheGet (loadBody ctx loadF filePath fd cache).2.1 filePath =
        some e ∧ e.result = r := by
  have hdeps0 : fd.transformerDeps = [] := hntd _ (alookup_mem hread)
  have hm : ctx.env.statMtime filePath = some fd.mtime :=
    statMtime_eq_of_readData hread
  have h0 : StFresh ctx.env
      { cache := cache, deps := fd.transformerDeps, toks := [],
        reads := [filePath] } := by
    refine ⟨h, fun d hd => ?_⟩
    rw [hdeps0] at hd
    cases hd
  unfold loadBody
  obtain ⟨him, himle⟩ := processAtImports_fresh ctx.resolver filePath hF
    fd.sheet.atImports _ h0
  obtain ⟨ha1, ha2, ha3⟩ := afterImports_fresh ctx hF filePath fd _ hm him
  exact ⟨ha1, CacheLe.trans himle ha2, ha3⟩

theorem loadAux_fresh (ctx : Ctx) (hntd : NoTransformerDeps ctx.env) :
    ∀ fuel, LoadFnFresh ctx.env (loadAux ctx fuel) := by
  intro fuel
  induction fuel with
  | zero =>
    intro cache q h
    exact ⟨h, CacheLe.rfl _, fun r hr => by cases hr⟩
  | succ n ih =>
    intro cache q h
    simp only [loadAux]
    cases hout : isCacheOutdated ctx.env cache q with
    | error e => exact ⟨h, CacheLe.rfl _, fun r hr => by cases hr⟩
    | ok b =>
      cases b with
      | false =>
        cases hget : cacheGet cache q with
        | none => exact ⟨h, CacheLe.rfl _, fun r hr => by cases hr⟩
        | some entry =>
          refine ⟨h, CacheLe.rfl _, fun r hr => ?_⟩
          obtain rfl : entry.result = r := by
            cases hr
            rfl
          exact ⟨entry, hget, rfl⟩
      | true =>
        cases hread : ctx.env.readData q with
        | none => exact ⟨h, CacheLe.rfl _, fun r hr => by cases hr⟩
        | some fd => exact loadBody_fresh ctx ih q fd cache hread hntd h

theorem depsOutdated_of_fresh (env : Env) (cache : Cache)
    (hcf : CacheFresh env cache) :
    ∀ deps, DepsClosed cache deps → depsOutdated env cache deps = .ok false := by
  intro deps
  induction deps with
  | nil => intro _; rfl
  | cons d rest ih =>
    intro hcl
    obtain ⟨e2, hge⟩ := Option.isSome_iff_exists.mp
      (hcl d (List.mem_cons_self d rest))
    have hef := hcf _ (alookup_mem hge)
    simp only [depsOutdated, hge, hef.1]
    rw [if_neg (by simp)]
    exact ih fun x hx => hcl x (List.mem_cons_of_mem d hx)

theorem isCacheOutdated_of_fresh (env : Env) (cache : Cache) (p : String)
    (e : CacheEntry) (hcf : CacheFresh env cache)
    (he : cacheGet cache p = some e) :
    isCacheOutdated env cache p = .ok false := by
  have hef := hcf _ (alookup_mem he)
  simp only [isCacheOutdated, he, hef.1]
  rw [if_neg (by simp)]
  exact depsOutdated_of_fresh env cache hcf _ hef.2

/-- C3 (amended): after a successful `load(F)` over a fresh cache, a
second `load(F)` with no filesystem change returns a structurally equal
(indeed identical) result and reads nothing — *provided no load involved
reports transformer dependencies*: a transformer-reported dependency never
receives a cache entry of its own, so with one present the staleness probe
fails and the second call re-reads the file (see the counterexample). -/
theorem claimC3_theorem (ctx : Ctx) (loc : LocatorState) (p : String)
    (fuel fuel2 : Nat) (r : LoadResult)
    (hntd : NoTransformerDeps ctx.env)
    (hcf : CacheFresh ctx.env loc.cache)
    (hnl : loc.loading = false)
    (h1 : (Locator.load ctx fuel loc p).1 = .ok r) :
    Locator.load ctx (fuel2 + 1) (Locator.load ctx fuel loc p).2.1 p =
      (.ok r, (Locator.load ctx fuel loc p).2.1, []) := by
  have hred : Locator.load ctx fuel loc p =
      ((loadAux ctx fuel loc.cache p).1,
       ⟨(loadAux ctx fuel loc.cache p).2.1, false⟩,
       (loadAux ctx fuel loc.cache p).2.2) := by
    simp [Locator.load, hnl]
  have h1a : (loadAux ctx fuel loc.cache p).1 = .ok r := by
    rw [hred] at h1
    exact h1
  obtain ⟨hfr, -, hok⟩ := loadAux_fresh ctx hntd fuel loc.cache p hcf
  obtain ⟨e, hge, hres⟩ := hok r h1a
  have hfresh := isCacheOutdated_of_fresh ctx.env _ p e hfr hge
  have hstep : loadAux ctx (fuel2 + 1) (loadAux ctx fuel loc.cache p).2.1 p =
      (.ok e.result, (loadAux ctx fuel loc.cache p).2.1, []) := by
    simp only [loadAux, hfresh, hge]
  rw [hred]
  simp only [Locator.load, hstep, Bool.false_eq_true, if_false]
  rw [hres]

/-- An empty parsed sheet. -/
def sheetEmpty : ParsedSheet :=
  { atImports := [], classSelectors := [], localTokenNames := [],
    atValues := [] }

/-- A filesystem in which `a.scss` reports one transformer dependency,
`p.scss` (e.g. an imported scss partial inlined by the preprocessor). -/
def envScss : Env :=
  [("a.scss", { mtime := 2, transformerDeps := ["p.scss"],
                sheet := sheetEmpty }),
   ("p.scss", { mtime := 3, transformerDeps := [], sheet := sheetEmpty })]

def ctxScss : Ctx := { env := envScss, resolver := noResolver }

/-- C3 (counterexample): with a transformer-reported dependency, the first
load succeeds and is cached, the filesystem does not change, and yet the
second load reads `a.scss` again — the cached entry lists `p.scss` as a
dependency, `p.scss` has no cache entry of its own, so the staleness probe
declares the entry outdated and `_load` re-reads the file. -/
theorem claimC3_counterexample :
    (Locator.load ctxScss 2 ⟨[], false⟩ "a.scss").1 =
      .ok { dependencies := ["p.scss"], tokens := [] } ∧
    (Locator.load ctxScss 2
        (Locator.load ctxScss 2 ⟨[], false⟩ "a.scss").2.1 "a.scss").2.2 =
      ["a.scss"] := by
  constructor
  · decide
  · decide

theorem claimC3_witness :
    NoTransformerDeps ctxBox.env ∧
    (Locator.load ctxBox 2 ⟨[], false⟩ "b.css").1 = .ok resBox ∧
    Locator.load ctxBox (1 + 1) (Locator.load ctxBox 2 ⟨[], false⟩ "b.css").2.1
        "b.css" =
      (.ok resBox, (Locator.load ctxBox 2 ⟨[], false⟩ "b.css").2.1, []) :=
  ⟨by unfold NoTransformerDeps; decide, by decide,
   claimC3_theorem ctxBox ⟨[], false⟩ "b.css" 2 1 resBox
     (by unfold NoTransformerDeps; decide)
     (fun pe hpe => absurd hpe (List.not_mem_nil pe)) rfl (by decide)⟩

end ClaimC3
